import Mathlib

/-!
Verification of the Embassy-Trade-AI trading core against its specification.

The development shallowly embeds the Python sources:
* `src/trading/ai_agent.py` — the Indicator Engine (`AIAgent`);
* `src/trading_signals.py` — the websocket feed loop
  (`ProfessionalTradingStrategy.process_websocket_message`);
* `src/trading/alpaca_client.py` — the broker boundary (`AlpacaClient.place_order`);
* the trade-decision operation of the Trade Lifecycle Manager, which is called
  from `main` in `src/trading_signals.py` but not defined in the available
  sources; it is modelled from the specification (see `Lifecycle.decide`).

Prices are embedded as rationals (`ℚ`); Python floats are treated as exact
reals, as the specification does. Python exceptions are embedded as `none`
(for an uncaught crash) or `Except.error` (for an exception caught by an
enclosing handler).
-/

namespace EmbTrade

/-! ## Indicator Engine: `src/trading/ai_agent.py` -/

/-- State of `AIAgent`: the two window sizes set in `__init__` and the
append-only price list. Window sizes are sample counts, embedded as `Nat`. -/
structure AIAgent where
  short_window : Nat
  long_window : Nat
  prices : List ℚ
deriving DecidableEq

/-- Python slice `l[-w:]` for a non-negative `w`: for `w = 0` the whole list,
otherwise the last `w` elements (the whole list when `w ≥ len(l)`). -/
def lastSlice (l : List ℚ) (w : Nat) : List ℚ :=
  if w = 0 then l else l.drop (l.length - w)

/-- Arithmetic mean, `np.mean`. On the empty list the quotient `0 / 0` is `0`
in `ℚ` (the `NaN` case; it is unreachable for the window sizes used here). -/
def listMean (l : List ℚ) : ℚ := l.sum / l.length

/-- Python indexing `l[-k]` for `k ≥ 1`: `some` element when `k ≤ len(l)`,
`none` (an `IndexError`) otherwise. -/
def negIndex (l : List ℚ) (k : Nat) : Option ℚ :=
  if k ≤ l.length then l.get? (l.length - k) else none

/-- The constructor `AIAgent.__init__(short_window, long_window)`. The return
type allows a configuration error so that fail-fast validation is statable,
but the source performs no validation: it only stores the two window sizes
and starts with an empty price list. -/
def AIAgent.init (short_window long_window : Nat) : Except String AIAgent :=
  .ok ⟨short_window, long_window, []⟩

/-- The method `AIAgent.calculate_moving_average(window)`: `None` when fewer
than `window` prices exist, otherwise `np.mean(self.prices[-window:])`. -/
def AIAgent.calculate_moving_average (a : AIAgent) (window : Nat) : Option ℚ :=
  if a.prices.length < window then none
  else some (listMean (lastSlice a.prices window))

/-- The method `AIAgent.add_price(price)`: appends one price. -/
def AIAgent.add_price (a : AIAgent) (price : ℚ) : AIAgent :=
  ⟨a.short_window, a.long_window, a.prices ++ [price]⟩

/-- Which action a recommendation carries. -/
inductive Action
  | buy
  | sell
  | hold
deriving DecidableEq

/-- The reasoning text of a recommendation, abstracted to which message
template the source builds (the buy/sell templates interpolate the two
moving averages into an f-string). -/
inductive Reasoning
  | insufficientData
  | maCalculationError
  | buySignal (short_ma long_ma : ℚ)
  | sellSignal (short_ma long_ma : ℚ)
  | noClearTrend
deriving DecidableEq

/-- The dictionary returned by `AIAgent.get_recommendation`. The wall-clock
`timestamp` field is omitted. -/
structure Recommendation where
  action : Action
  reasoning : Reasoning
  entry_price : Option ℚ
  take_profit : Option ℚ
  confidence : ℚ
deriving DecidableEq

/-- The method `AIAgent.get_recommendation()`. `none` is an uncaught
exception (the source reads `prices[-1]` and `prices[-2]` before the
moving averages, so those reads can raise `IndexError` for degenerate
window sizes). The confidence is
`min(0.95, max(0.5, 0.7 + abs(short_ma - long_ma) / long_ma))`. -/
def AIAgent.get_recommendation (a : AIAgent) : Option Recommendation :=
  if a.prices.length < a.long_window then
    some ⟨.hold, .insufficientData, none, none, 0⟩
  else
    match negIndex a.prices 1, negIndex a.prices 2 with
    | some current_price, some prev_price =>
      match a.calculate_moving_average a.short_window,
            a.calculate_moving_average a.long_window with
      | some short_ma, some long_ma =>
        let ma_diff := |short_ma - long_ma| / long_ma
        let confidence := min (95/100 : ℚ) (max (1/2) (7/10 + ma_diff))
        if short_ma > long_ma ∧ current_price > prev_price then
          some ⟨.buy, .buySignal short_ma long_ma, some current_price,
                some (current_price * (105/100)), confidence⟩
        else if short_ma < long_ma ∧ current_price < prev_price then
          some ⟨.sell, .sellSignal short_ma long_ma, some current_price,
                some (current_price * (95/100)), confidence⟩
        else
          some ⟨.hold, .noClearTrend, none, none, confidence⟩
      | _, _ => some ⟨.hold, .maCalculationError, none, none, 0⟩
    | _, _ => none

/-- Explicit state-passing form of `get_recommendation`: the method body of
the source contains only reads of `self`, no assignment, so the state it
returns is the state it received. -/
def AIAgent.get_recommendation_run (a : AIAgent) :
    AIAgent × Option Recommendation :=
  (a, a.get_recommendation)

/-- A sequence of `n` consecutive `get_recommendation` calls, threading the
engine state through each call and collecting the results. -/
def AIAgent.recommendTrace : Nat → AIAgent → AIAgent × List (Option Recommendation)
  | 0, a => (a, [])
  | n + 1, a =>
    let step := a.get_recommendation_run
    let rest := AIAgent.recommendTrace n step.1
    (rest.1, step.2 :: rest.2)

/-! ## Price Feed Client: `ProfessionalTradingStrategy.process_websocket_message`
in `src/trading_signals.py` -/

/-- The constant `MAX_RECONNECT_ATTEMPTS` from `src/trading_signals.py`. -/
def MAX_RECONNECT_ATTEMPTS : Nat := 5

/-- The value found under the key `"price"` of an inbound `result` object:
absent (so `.get("price", 0)` yields `0`), a numeric value, or a value on
which `float(...)` raises. -/
inductive PriceField
  | absent
  | num (q : ℚ)
  | nonNumeric
deriving DecidableEq

/-- One inbound websocket frame, as the receive loop classifies it:
`malformed` makes `json.loads` (or the receive itself) raise; `noResult` is
parsed JSON without a dict under `"result"` and is ignored; `withResult`
carries the `"price"` entry of the `result` dict. -/
inductive WsMsg
  | malformed
  | noResult
  | withResult (price : PriceField)
deriving DecidableEq

/-- The body of the inner receive loop, acting on the price series shared
with the Indicator Engine. `Except.error` means the exception escapes to the
reconnect handler, terminating the current connection; `Except.ok` returns
the (possibly extended) price series with the connection still open. A price
is appended only when it is numeric and strictly positive. -/
def handleMsg (prices : List ℚ) : WsMsg → Except Unit (List ℚ)
  | .malformed => .error ()
  | .noResult => .ok prices
  | .withResult pf =>
    match pf with
    | .absent => .ok prices
    | .nonNumeric => .error ()
    | .num p => .ok (if 0 < p then prices ++ [p] else prices)

/-- The inner `while True` receive loop over the frames one connection
delivers. The loop never exits normally; a session ends either at the
exception raised by a frame (dropping the remaining frames) or, once the
trace is exhausted, at a transport error. Returns the price series at the
moment the connection dies. -/
def runInner (prices : List ℚ) : List WsMsg → List ℚ
  | [] => prices
  | m :: ms =>
    match handleMsg prices m with
    | .ok ps => runInner ps ms
    | .error _ => prices

/-- The mutable state of the outer reconnect loop: the local counter
`reconnect_attempts` and the shared price series. -/
structure FeedState where
  reconnect_attempts : Nat
  prices : List ℚ
deriving DecidableEq

/-- The outer `while reconnect_attempts < MAX_RECONNECT_ATTEMPTS` loop of
`process_websocket_message`, run over a trace of connection sessions (each
session is the list of frames that connection delivers before it dies; a
session ending in an exception is one loop iteration, so it increments the
counter by one). The second component is the returned value: `some false`
when the loop has exited and the method returned `False`, `none` while the
trace ends with the loop still connected. -/
def runFeed : FeedState → List (List WsMsg) → FeedState × Option Bool
  | st, [] =>
    if st.reconnect_attempts < MAX_RECONNECT_ATTEMPTS then (st, none)
    else (st, some false)
  | st, s :: rest =>
    if st.reconnect_attempts < MAX_RECONNECT_ATTEMPTS then
      runFeed ⟨st.reconnect_attempts + 1, runInner st.prices s⟩ rest
    else (st, some false)

/-! ## Trade Lifecycle Manager

The accept path of `main` in `src/trading_signals.py` calls
`strategy.execute_trade(id)`, and `generate_signals` stores pending trades
in `pending_trades`, but no decide/execute operation is defined anywhere in
the available sources. The operation is modelled from the specification,
section 4.4. -/

namespace Lifecycle

/-- Status of a TradeProposal. `pending` is the only non-terminal status;
`failed` retains the broker failure reason. -/
inductive TradeStatus
  | pending
  | accepted
  | skipped
  | executed
  | failed (reason : String)
deriving DecidableEq

/-- Modelled from the spec: a TradeProposal as stored by the Trade Lifecycle
Manager (section 3 of the specification), keeping the fields the decision
protocol touches. -/
structure TradeProposal where
  id : Nat
  side : Action
  entry_price : ℚ
  take_profit : ℚ
  status : TradeStatus
deriving DecidableEq

/-- A TradeProposal with every field except the status unchanged. -/
def TradeProposal.withStatus (p : TradeProposal) (s : TradeStatus) : TradeProposal :=
  ⟨p.id, p.side, p.entry_price, p.take_profit, s⟩

/-- The proposal mapping keyed by id (`pending_trades` in the source). -/
abbrev ProposalMap := List (Nat × TradeProposal)

/-- Lookup of a proposal by id. -/
def lookupProposal (m : ProposalMap) (id : Nat) : Option TradeProposal :=
  (m.find? (fun kv => kv.1 = id)).map Prod.snd

/-- Replaces the status of the proposal stored under `id`, leaving every
other entry unchanged. -/
def updateStatus (m : ProposalMap) (id : Nat) (s : TradeStatus) : ProposalMap :=
  m.map (fun kv => if kv.1 = id then (kv.1, kv.2.withStatus s) else kv)

/-- Whether a status is terminal (anything but `pending`). -/
def TradeStatus.isTerminal : TradeStatus → Bool
  | .pending => false
  | _ => true

/-- The error returned for a decision on an unknown or already-resolved id. -/
inductive DecisionError
  | notFoundOrResolved
deriving DecidableEq

/-- Outcome of the broker boundary call made for an accepted proposal. -/
inductive BrokerResult
  | success
  | failure (reason : String)
deriving DecidableEq

/-- Modelled from the spec: `decide(id, accept)` of the Trade Lifecycle
Manager (section 4.4; `ProfessionalTradingStrategy.execute_trade`, called
from `main`, is missing from the sources). An unknown or already-terminal id
is rejected with a not-found / already-resolved error and the mapping is
returned unchanged. A pending proposal transitions exactly once: on skip to
`skipped`; on accept to `executed` or `failed` according to the broker
outcome, the failure reason retained. -/
def decide (m : ProposalMap) (id : Nat) (accept : Bool) (broker : BrokerResult) :
    ProposalMap × Except DecisionError TradeStatus :=
  match lookupProposal m id with
  | none => (m, .error .notFoundOrResolved)
  | some p =>
    if p.status = .pending then
      let newStatus : TradeStatus :=
        if accept then
          match broker with
          | .success => .executed
          | .failure r => .failed r
        else .skipped
      (updateStatus m id newStatus, .ok newStatus)
    else (m, .error .notFoundOrResolved)

end Lifecycle

/-! ## Broker boundary: `AlpacaClient.place_order` in
`src/trading/alpaca_client.py` -/

/-- The arguments of `place_order`; quantity as an exact number, the
remaining fields symbolic strings. -/
structure OrderRequest where
  symbol : String
  qty : ℚ
  side : String
  order_type : String
  time_in_force : String
deriving DecidableEq

/-- The method `AlpacaClient.place_order`: wraps `self.api.submit_order` in
`try/except`; on success it returns the order the broker produced, on any
exception it prints the error and returns `None`. The broker call is the
opaque boundary, passed as the function `submit`; the second component
collects the printed lines. -/
def place_order {Order : Type} (submit : OrderRequest → Except String Order)
    (req : OrderRequest) : Option Order × List String :=
  match submit req with
  | .ok order => (some order, [])
  | .error e => (none, ["Error placing order: " ++ e])

/-! ## Helper lemmas -/

/-- A negative index `l[-k]` with `1 ≤ k ≤ len(l)` resolves to an element. -/
theorem negIndex_isSome (l : List ℚ) (k : Nat) (h1 : 1 ≤ k) (h2 : k ≤ l.length) :
    ∃ x, negIndex l k = some x := by
  unfold negIndex
  rw [if_pos h2]
  have hlt : l.length - k < l.length := by omega
  exact ⟨l.get ⟨l.length - k, hlt⟩, List.get?_eq_get hlt⟩

/-- With at least `window` prices the moving average is defined. -/
theorem calculate_moving_average_isSome (a : AIAgent) (window : Nat)
    (h : window ≤ a.prices.length) :
    a.calculate_moving_average window = some (listMean (lastSlice a.prices window)) := by
  unfold AIAgent.calculate_moving_average
  rw [if_neg (by omega)]

/-- Reduction of `get_recommendation` once its four reads are resolved: with
enough prices it is exactly the three-way crossover decision. -/
theorem get_recommendation_eq (a : AIAgent)
    (hlen : a.long_window ≤ a.prices.length)
    (pt pt1 sma lma : ℚ)
    (hpt : negIndex a.prices 1 = some pt)
    (hpt1 : negIndex a.prices 2 = some pt1)
    (hsma : a.calculate_moving_average a.short_window = some sma)
    (hlma : a.calculate_moving_average a.long_window = some lma) :
    a.get_recommendation =
      some (if sma > lma ∧ pt > pt1 then
              ⟨.buy, .buySignal sma lma, some pt, some (pt * (105/100)),
               min (95/100 : ℚ) (max (1/2) (7/10 + |sma - lma| / lma))⟩
            else if sma < lma ∧ pt < pt1 then
              ⟨.sell, .sellSignal sma lma, some pt, some (pt * (95/100)),
               min (95/100 : ℚ) (max (1/2) (7/10 + |sma - lma| / lma))⟩
            else
              ⟨.hold, .noClearTrend, none, none,
               min (95/100 : ℚ) (max (1/2) (7/10 + |sma - lma| / lma))⟩) := by
  unfold AIAgent.get_recommendation
  rw [if_neg (by omega)]
  simp only [hpt, hpt1, hsma, hlma]
  split
  · rfl
  · split
    · rfl
    · rfl

/-! ## Claims -/

/-- Claim C1: for a history of at least `long_window` prices (with the reads
of the last two prices and the two moving averages resolving), the
recommendation is `buy` with `entry_price = p[t]` and
`take_profit = p[t] * 1.05` exactly when `short_ma > long_ma` and
`p[t] > p[t-1]`; `sell` with `take_profit = p[t] * 0.95` exactly when
`short_ma < long_ma` and `p[t] < p[t-1]`; and otherwise `hold` with no
entry price and no take profit. -/
theorem c1_crossover_decision (a : AIAgent)
    (hlen : a.long_window ≤ a.prices.length)
    (pt pt1 sma lma : ℚ)
    (hpt : negIndex a.prices 1 = some pt)
    (hpt1 : negIndex a.prices 2 = some pt1)
    (hsma : a.calculate_moving_average a.short_window = some sma)
    (hlma : a.calculate_moving_average a.long_window = some lma) :
    ∃ r : Recommendation, a.get_recommendation = some r ∧
      (r.action = .buy ↔ sma > lma ∧ pt > pt1) ∧
      (r.action = .sell ↔ sma < lma ∧ pt < pt1) ∧
      (r.action = .buy → r.entry_price = some pt ∧ r.take_profit = some (pt * (105/100))) ∧
      (r.action = .sell → r.entry_price = some pt ∧ r.take_profit = some (pt * (95/100))) ∧
      (r.action = .hold → r.entry_price = none ∧ r.take_profit = none) := by
  rw [get_recommendation_eq a hlen pt pt1 sma lma hpt hpt1 hsma hlma]
  by_cases h1 : sma > lma ∧ pt > pt1
  · rw [if_pos h1]
    refine ⟨_, rfl, ?_, ?_, ?_, ?_, ?_⟩
    · exact ⟨fun _ => h1, fun _ => rfl⟩
    · exact ⟨fun h => Action.noConfusion h, fun hc => absurd hc.1 (lt_asymm h1.1)⟩
    · exact fun _ => ⟨rfl, rfl⟩
    · exact fun h => Action.noConfusion h
    · exact fun h => Action.noConfusion h
  · rw [if_neg h1]
    by_cases h2 : sma < lma ∧ pt < pt1
    · rw [if_pos h2]
      refine ⟨_, rfl, ?_, ?_, ?_, ?_, ?_⟩
      · exact ⟨fun h => Action.noConfusion h, fun hc => absurd hc.1 (lt_asymm h2.1)⟩
      · exact ⟨fun _ => h2, fun _ => rfl⟩
      · exact fun h => Action.noConfusion h
      · exact fun _ => ⟨rfl, rfl⟩
      · exact fun h => Action.noConfusion h
    · rw [if_neg h2]
      refine ⟨_, rfl, ?_, ?_, ?_, ?_, ?_⟩
      · exact ⟨fun h => Action.noConfusion h, fun hc => absurd hc h1⟩
      · exact ⟨fun h => Action.noConfusion h, fun hc => absurd hc h2⟩
      · exact fun h => Action.noConfusion h
      · exact fun h => Action.noConfusion h
      · exact fun _ => ⟨rfl, rfl⟩

/-- Witness for C1 at the engine `(2, 4)` with prices
`[1, 1, 1, 1, 1.1, 1.2]`. -/
theorem c1_crossover_decision_witness :
    ∃ r : Recommendation,
      (AIAgent.mk 2 4 [1, 1, 1, 1, 11/10, 6/5]).get_recommendation = some r ∧
      (r.action = .buy ↔ (23/20 : ℚ) > 43/40 ∧ (6/5 : ℚ) > 11/10) ∧
      (r.action = .sell ↔ (23/20 : ℚ) < 43/40 ∧ (6/5 : ℚ) < 11/10) ∧
      (r.action = .buy → r.entry_price = some (6/5) ∧
        r.take_profit = some ((6/5) * (105/100))) ∧
      (r.action = .sell → r.entry_price = some (6/5) ∧
        r.take_profit = some ((6/5) * (95/100))) ∧
      (r.action = .hold → r.entry_price = none ∧ r.take_profit = none) :=
  c1_crossover_decision (AIAgent.mk 2 4 [1, 1, 1, 1, 11/10, 6/5])
    (by norm_num) (6/5) (11/10) (23/20) (43/40) rfl rfl
    (by norm_num [AIAgent.calculate_moving_average, listMean, lastSlice])
    (by norm_num [AIAgent.calculate_moving_average, listMean, lastSlice])

/-- Claim C2: with fewer than `long_window` prices the recommendation is
`hold` with confidence exactly `0`, the insufficient-data reasoning, and no
entry price or take profit. -/
theorem c2_insufficient_data (a : AIAgent) (hlen : a.prices.length < a.long_window) :
    a.get_recommendation = some ⟨.hold, .insufficientData, none, none, 0⟩ := by
  unfold AIAgent.get_recommendation
  rw [if_pos hlen]

/-- Witness for C2 at the default engine `(50, 200)` with no prices. -/
theorem c2_insufficient_data_witness :
    (AIAgent.mk 50 200 []).get_recommendation =
      some ⟨.hold, .insufficientData, none, none, 0⟩ :=
  c2_insufficient_data (AIAgent.mk 50 200 []) (by decide)

/-- Counterexample to claim C3: the engine `(1, 2)` is a valid configuration
and `[1]` a history of positive prices, yet the returned confidence is `0`,
outside `[0.5, 0.95]`. -/
theorem c3_confidence_counterexample :
    (AIAgent.mk 1 2 [1]).get_recommendation =
      some ⟨.hold, .insufficientData, none, none, 0⟩ ∧
    ¬ ((1/2 : ℚ) ≤ 0) :=
  ⟨rfl, by norm_num⟩

/-- Claim C3 as amended: for a valid window configuration and a history of
positive prices with at least `long_window` entries, the confidence equals
`clamp(0.7 + abs(short_ma - long_ma) / long_ma, 0.5, 0.95)` and lies within
`[0.5, 0.95]`. (As stated the claim also covered histories shorter than
`long_window`, where the source returns confidence `0`.) -/
theorem c3_confidence_clamped (a : AIAgent)
    (hs : 0 < a.short_window) (hsl : a.short_window < a.long_window)
    (hlen : a.long_window ≤ a.prices.length)
    (hpos : ∀ p ∈ a.prices, 0 < p) :
    ∃ (r : Recommendation) (sma lma : ℚ),
      a.calculate_moving_average a.short_window = some sma ∧
      a.calculate_moving_average a.long_window = some lma ∧
      a.get_recommendation = some r ∧
      r.confidence = min (95/100 : ℚ) (max (1/2) (7/10 + |sma - lma| / lma)) ∧
      1/2 ≤ r.confidence ∧ r.confidence ≤ 95/100 := by
  obtain ⟨pt, hpt⟩ := negIndex_isSome a.prices 1 (by omega) (by omega)
  obtain ⟨pt1, hpt1⟩ := negIndex_isSome a.prices 2 (by omega) (by omega)
  obtain ⟨sma, hsma⟩ : ∃ x, a.calculate_moving_average a.short_window = some x :=
    ⟨_, calculate_moving_average_isSome a a.short_window (by omega)⟩
  obtain ⟨lma, hlma⟩ : ∃ x, a.calculate_moving_average a.long_window = some x :=
    ⟨_, calculate_moving_average_isSome a a.long_window (by omega)⟩
  have hre := get_recommendation_eq a hlen pt pt1 sma lma hpt hpt1 hsma hlma
  by_cases h1 : sma > lma ∧ pt > pt1
  · rw [if_pos h1] at hre
    exact ⟨_, sma, lma, hsma, hlma, hre, rfl,
      le_min (by norm_num) (le_max_left _ _), min_le_left _ _⟩
  · rw [if_neg h1] at hre
    by_cases h2 : sma < lma ∧ pt < pt1
    · rw [if_pos h2] at hre
      exact ⟨_, sma, lma, hsma, hlma, hre, rfl,
        le_min (by norm_num) (le_max_left _ _), min_le_left _ _⟩
    · rw [if_neg h2] at hre
      exact ⟨_, sma, lma, hsma, hlma, hre, rfl,
        le_min (by norm_num) (le_max_left _ _), min_le_left _ _⟩

/-- Witness for C3 (amended) at the engine `(2, 4)` with prices
`[1, 1, 1, 1, 1.1, 1.2]`. -/
theorem c3_confidence_clamped_witness :
    ∃ (r : Recommendation) (sma lma : ℚ),
      (AIAgent.mk 2 4 [1, 1, 1, 1, 11/10, 6/5]).calculate_moving_average 2 = some sma ∧
      (AIAgent.mk 2 4 [1, 1, 1, 1, 11/10, 6/5]).calculate_moving_average 4 = some lma ∧
      (AIAgent.mk 2 4 [1, 1, 1, 1, 11/10, 6/5]).get_recommendation = some r ∧
      r.confidence = min (95/100 : ℚ) (max (1/2) (7/10 + |sma - lma| / lma)) ∧
      1/2 ≤ r.confidence ∧ r.confidence ≤ 95/100 :=
  c3_confidence_clamped (AIAgent.mk 2 4 [1, 1, 1, 1, 11/10, 6/5])
    (by decide) (by decide) (by norm_num) (by norm_num)

/-- Counterexample to claim C4: after a successful reconnect the attempt
counter is not reset to zero. Starting from a fresh loop, the first
connection dies and the second connection succeeds and delivers a valid
tick; the counter then reads `2`, not `0`. -/
theorem c4_no_reset_counterexample :
    runFeed ⟨0, []⟩ [[WsMsg.withResult (PriceField.num 1)],
                     [WsMsg.withResult (PriceField.num 1)]] =
      (⟨2, [1, 1]⟩, none) ∧ (2 : Nat) ≠ 0 := by
  refine ⟨?_, by decide⟩
  simp [runFeed, runInner, handleMsg, MAX_RECONNECT_ATTEMPTS]

/-- Claim C4 as amended: the reconnect counter never exceeds
`MAX_RECONNECT_ATTEMPTS` and is monotonically non-decreasing (it is never
reset, not even on a successful reconnect); once it has reached the maximum
the loop returns the terminal failure `False` and performs no further
connect attempts. -/
theorem c4_reconnect_cap (st : FeedState) (sessions : List (List WsMsg))
    (hst : st.reconnect_attempts ≤ MAX_RECONNECT_ATTEMPTS) :
    (runFeed st sessions).1.reconnect_attempts ≤ MAX_RECONNECT_ATTEMPTS ∧
    st.reconnect_attempts ≤ (runFeed st sessions).1.reconnect_attempts ∧
    (st.reconnect_attempts = MAX_RECONNECT_ATTEMPTS →
      runFeed st sessions = (st, some false)) := by
  induction sessions generalizing st with
  | nil =>
    simp only [runFeed]
    by_cases h : st.reconnect_attempts < MAX_RECONNECT_ATTEMPTS
    · rw [if_pos h]
      exact ⟨hst, le_refl _, fun he => absurd h (by omega)⟩
    · rw [if_neg h]
      exact ⟨hst, le_refl _, fun _ => rfl⟩
  | cons s rest ih =>
    simp only [runFeed]
    by_cases h : st.reconnect_attempts < MAX_RECONNECT_ATTEMPTS
    · rw [if_pos h]
      obtain ⟨ha, hb, _⟩ :=
        ih ⟨st.reconnect_attempts + 1, runInner st.prices s⟩
          (by show st.reconnect_attempts + 1 ≤ MAX_RECONNECT_ATTEMPTS; omega)
      exact ⟨ha, le_trans (Nat.le_succ _) hb, fun he => absurd h (by omega)⟩
    · rw [if_neg h]
      exact ⟨hst, le_refl _, fun _ => rfl⟩

/-- Witness for C4 (amended) starting from a fresh loop with one session. -/
theorem c4_reconnect_cap_witness :
    (runFeed ⟨0, []⟩ [[WsMsg.withResult (PriceField.num 1)]]).1.reconnect_attempts ≤
      MAX_RECONNECT_ATTEMPTS ∧
    (0 : Nat) ≤ (runFeed ⟨0, []⟩ [[WsMsg.withResult (PriceField.num 1)]]).1.reconnect_attempts ∧
    ((0 : Nat) = MAX_RECONNECT_ATTEMPTS →
      runFeed ⟨0, []⟩ [[WsMsg.withResult (PriceField.num 1)]] = (⟨0, []⟩, some false)) :=
  c4_reconnect_cap ⟨0, []⟩ [[WsMsg.withResult (PriceField.num 1)]] (by decide)

/-- Counterexample to claim C5: a message whose price field is non-numeric
is not dropped silently — `float(...)` raises, the exception escapes the
receive loop (terminating the connection), and the reconnect handler
increments the attempt counter. -/
theorem c5_non_numeric_counterexample :
    handleMsg [] (WsMsg.withResult PriceField.nonNumeric) = .error () ∧
    (runFeed ⟨0, []⟩ [[WsMsg.withResult PriceField.nonNumeric]]).1.reconnect_attempts = 1 := by
  refine ⟨rfl, ?_⟩
  simp [runFeed, runInner, handleMsg, MAX_RECONNECT_ATTEMPTS]

/-- Claim C5 as amended: a message with a missing price field, or with a
non-positive numeric price, is dropped silently — nothing is appended to
the price series and the connection stays open; a non-numeric price field
instead raises, terminating the connection (and so triggering a reconnect
attempt). -/
theorem c5_malformed_price_dropped (prices : List ℚ) (q : ℚ) (hq : q ≤ 0) :
    handleMsg prices (WsMsg.withResult .absent) = .ok prices ∧
    handleMsg prices (WsMsg.withResult (.num q)) = .ok prices ∧
    handleMsg prices (WsMsg.withResult .nonNumeric) = .error () := by
  refine ⟨rfl, ?_, rfl⟩
  simp only [handleMsg]
  rw [if_neg (not_lt.mpr hq)]

/-- Witness for C5 (amended) on the empty series with price `0`. -/
theorem c5_malformed_price_dropped_witness :
    handleMsg [] (WsMsg.withResult .absent) = .ok [] ∧
    handleMsg [] (WsMsg.withResult (.num 0)) = .ok [] ∧
    handleMsg [] (WsMsg.withResult .nonNumeric) = .error () :=
  c5_malformed_price_dropped [] 0 le_rfl

/-- Counterexample to claim C7: on the scenario engine `(2, 4)` with prices
`[1, 1, 1, 1, 1.1, 1.2]` the long moving average is `1.075`, not
approximately `1.05` (reading the approximation at the two decimal places
the claim uses, the deviation is `0.025 > 0.01`). -/
theorem c7_long_ma_counterexample :
    (AIAgent.mk 2 4 [1, 1, 1, 1, 11/10, 6/5]).calculate_moving_average 4 =
      some (43/40) ∧
    ¬ |(43/40 : ℚ) - 21/20| ≤ 1/100 := by
  constructor
  · norm_num [AIAgent.calculate_moving_average, listMean, lastSlice]
  · rw [abs_of_nonneg (by norm_num)]
    norm_num

/-- Claim C7 as amended: with `short_window = 2`, `long_window = 4` and the
price sequence `[1, 1, 1, 1, 1.1, 1.2]`, the engine computes
`long_ma = 1.075` (not `1.05`) and `short_ma = 1.15`, and the
recommendation is `buy` with `entry_price = 1.2`, `take_profit = 1.26`
(and confidence `331/430`). -/
theorem c7_scenario_buy :
    (AIAgent.mk 2 4 [1, 1, 1, 1, 11/10, 6/5]).calculate_moving_average 2 =
      some (23/20) ∧
    (AIAgent.mk 2 4 [1, 1, 1, 1, 11/10, 6/5]).calculate_moving_average 4 =
      some (43/40) ∧
    (AIAgent.mk 2 4 [1, 1, 1, 1, 11/10, 6/5]).get_recommendation =
      some ⟨.buy, .buySignal (23/20) (43/40), some (6/5), some (63/50), 331/430⟩ := by
  have hsma : (AIAgent.mk 2 4 [1, 1, 1, 1, 11/10, 6/5]).calculate_moving_average 2 =
      some (23/20) := by
    norm_num [AIAgent.calculate_moving_average, listMean, lastSlice]
  have hlma : (AIAgent.mk 2 4 [1, 1, 1, 1, 11/10, 6/5]).calculate_moving_average 4 =
      some (43/40) := by
    norm_num [AIAgent.calculate_moving_average, listMean, lastSlice]
  refine ⟨hsma, hlma, ?_⟩
  rw [get_recommendation_eq (AIAgent.mk 2 4 [1, 1, 1, 1, 11/10, 6/5])
    (by norm_num) (6/5) (11/10) (23/20) (43/40) rfl rfl hsma hlma]
  rw [if_pos (by constructor <;> norm_num)]
  have h1 : (6/5 : ℚ) * (105/100) = 63/50 := by norm_num
  have h2 : min (95/100 : ℚ) (max (1/2) (7/10 + |(23/20 : ℚ) - 43/40| / (43/40))) =
      331/430 := by
    rw [abs_of_nonneg (by norm_num)]
    rw [show (7/10 + ((23/20 : ℚ) - 43/40) / (43/40)) = 331/430 by norm_num]
    rw [max_eq_right (by norm_num), min_eq_right (by norm_num)]
  rw [h1, h2]

namespace Lifecycle

/-- Updating the status of the entry under `id` changes exactly that entry
as seen through lookup by `id`. -/
theorem lookupProposal_updateStatus (m : ProposalMap) (id : Nat) (s : TradeStatus) :
    lookupProposal (updateStatus m id s) id =
      (lookupProposal m id).map (fun p => p.withStatus s) := by
  induction m with
  | nil => rfl
  | cons kv rest ih =>
    by_cases h : kv.1 = id
    · simp [lookupProposal, updateStatus, h]
    · simp only [lookupProposal, updateStatus, List.map_cons] at *
      rw [if_neg h]
      rw [List.find?_cons_of_neg _ (by simpa using h),
          List.find?_cons_of_neg _ (by simpa using h)]
      exact ih

/-- Claim C6, against the decide operation modelled from the specification:
a decision on an unknown id, or on an id whose proposal is already
terminal, returns the not-found / already-resolved error and leaves the
proposal mapping unchanged; the first decision on a pending proposal moves
it to a terminal status (`skipped` on skip, `executed` or `failed` on
accept according to the broker outcome), and any later decision on the same
id errors and leaves the mapping unchanged. -/
theorem c6_decide_at_most_once (m : ProposalMap) (id : Nat) (accept : Bool)
    (br : BrokerResult) :
    (lookupProposal m id = none →
      decide m id accept br = (m, .error .notFoundOrResolved)) ∧
    (∀ p, lookupProposal m id = some p → p.status ≠ .pending →
      decide m id accept br = (m, .error .notFoundOrResolved)) ∧
    (∀ p, lookupProposal m id = some p → p.status = .pending →
      ∃ s, decide m id accept br = (updateStatus m id s, .ok s) ∧
        s.isTerminal = true ∧
        lookupProposal (updateStatus m id s) id = some (p.withStatus s) ∧
        ∀ accept2 br2, decide (updateStatus m id s) id accept2 br2 =
          (updateStatus m id s, .error .notFoundOrResolved)) := by
  refine ⟨fun h => ?_, fun p hp hnp => ?_, fun p hp hpend => ?_⟩
  · simp [decide, h]
  · simp [decide, hp, hnp]
  · have hlu : ∀ s : TradeStatus,
        lookupProposal (updateStatus m id s) id = some (p.withStatus s) := by
      intro s
      rw [lookupProposal_updateStatus, hp]
      rfl
    have hdec : ∀ s : TradeStatus, s ≠ .pending → ∀ a2 b2,
        decide (updateStatus m id s) id a2 b2 =
          (updateStatus m id s, .error .notFoundOrResolved) := by
      intro s hs a2 b2
      simp [decide, hlu s, TradeProposal.withStatus, hs]
    cases accept with
    | false =>
      refine ⟨.skipped, ?_, rfl, hlu _, hdec _ (fun h => TradeStatus.noConfusion h)⟩
      simp [decide, hp, hpend]
    | true =>
      cases br with
      | success =>
        refine ⟨.executed, ?_, rfl, hlu _, hdec _ (fun h => TradeStatus.noConfusion h)⟩
        simp [decide, hp, hpend]
      | failure r =>
        refine ⟨.failed r, ?_, rfl, hlu _, hdec _ (fun h => TradeStatus.noConfusion h)⟩
        simp [decide, hp, hpend]

/-- Witness for C6: a mapping holding one pending proposal under id `1`,
decided with accept and a successful broker call. -/
theorem c6_decide_at_most_once_witness :
    ∃ s, decide [(1, ⟨1, Action.buy, 1, 2, .pending⟩)] 1 true .success =
        (updateStatus [(1, ⟨1, Action.buy, 1, 2, .pending⟩)] 1 s, .ok s) ∧
      s.isTerminal = true ∧
      lookupProposal (updateStatus [(1, ⟨1, Action.buy, 1, 2, .pending⟩)] 1 s) 1 =
        some (TradeProposal.withStatus ⟨1, Action.buy, 1, 2, .pending⟩ s) ∧
      ∀ accept2 br2,
        decide (updateStatus [(1, ⟨1, Action.buy, 1, 2, .pending⟩)] 1 s) 1 accept2 br2 =
          (updateStatus [(1, ⟨1, Action.buy, 1, 2, .pending⟩)] 1 s,
            .error .notFoundOrResolved) :=
  (c6_decide_at_most_once [(1, ⟨1, Action.buy, 1, 2, .pending⟩)] 1 true .success).2.2
    ⟨1, Action.buy, 1, 2, .pending⟩ rfl rfl

end Lifecycle

/-- Counterexample to claim C8: constructing the engine with non-positive
window sizes, or with the short window not smaller than the long window,
does not fail with a configuration error — an engine instance is produced
without any validation. -/
theorem c8_no_validation_counterexample :
    AIAgent.init 0 0 = .ok ⟨0, 0, []⟩ ∧ AIAgent.init 3 2 = .ok ⟨3, 2, []⟩ :=
  ⟨rfl, rfl⟩

/-- Claim C8 as amended: the constructor performs no validation; every
window configuration, valid or not, produces an engine instance with an
empty price history. -/
theorem c8_init_never_fails (s l : Nat) : AIAgent.init s l = .ok ⟨s, l, []⟩ := rfl

/-- Claim C9: `get_recommendation` is a read-only query — threading the
engine state through any number of consecutive calls leaves the state
(price series and both window sizes) unchanged, and every call observes the
same recommendation. -/
theorem c9_recommend_read_only (n : Nat) (a : AIAgent) :
    (AIAgent.recommendTrace n a).1 = a ∧
    (AIAgent.recommendTrace n a).2 = List.replicate n a.get_recommendation := by
  induction n with
  | zero => exact ⟨rfl, rfl⟩
  | succ n ih =>
    simp only [AIAgent.recommendTrace, AIAgent.get_recommendation_run,
      List.replicate_succ]
    exact ⟨ih.1, by rw [ih.2]⟩

/-- Claim C10: `place_order` never raises — it returns the submitted order
on broker success and `None` on any broker failure, with the failure reason
kept out of the returned value (it is only printed). -/
theorem c10_place_order_no_raise {Order : Type}
    (submit : OrderRequest → Except String Order) (req : OrderRequest) :
    (∀ o, submit req = .ok o → place_order submit req = (some o, [])) ∧
    (∀ e, submit req = .error e →
      place_order submit req = (none, ["Error placing order: " ++ e])) ∧
    (place_order submit req).1 = (submit req).toOption := by
  refine ⟨fun o h => ?_, fun e h => ?_, ?_⟩
  · simp [place_order, h]
  · simp [place_order, h]
  · cases h : submit req <;> simp [place_order, h, Except.toOption]

/-- Witness for C10 on a broker that accepts and one that rejects. -/
theorem c10_place_order_no_raise_witness :
    place_order (fun _ => Except.ok (42 : Nat)) ⟨"EMB", 100, "buy", "market", "gtc"⟩ =
      (some 42, []) ∧
    place_order (fun _ => (Except.error "rejected" : Except String Nat))
        ⟨"EMB", 100, "buy", "market", "gtc"⟩ =
      (none, ["Error placing order: " ++ "rejected"]) :=
  ⟨(c10_place_order_no_raise (fun _ => Except.ok (42 : Nat))
      ⟨"EMB", 100, "buy", "market", "gtc"⟩).1 42 rfl,
   (c10_place_order_no_raise (fun _ => (Except.error "rejected" : Except String Nat))
      ⟨"EMB", 100, "buy", "market", "gtc"⟩).2.1 "rejected" rfl⟩

end EmbTrade
